import Mathlib

/-!
Verification of the ride-hailing core (geohash codec, spatial index, lock
manager, ride state machine, ride/location services, matching loop) against
its specification.  The Go sources are embedded shallowly: floating-point
coordinates become rationals (all coordinate arithmetic performed by the
codec is dyadic, hence exact), `time.Time` becomes a natural-number clock
passed explicitly, Go maps become association lists or total functions,
pointer aliasing between a repository and a fetched entity is made explicit
by writing mutations back to the store at each entity-method call, and a
Go runtime panic (out-of-range string index) is modelled as `Option.none`.
-/

namespace Uber

/-! ### Geohash codec (`internal/geo/geohash.go`) -/

/-- The geohash base-32 alphabet (`base32` in the source). -/
def base32 : List Char := "0123456789bcdefghjkmnpqrstuvwxyz".toList

/-- Reverse lookup built by `init()`: first index of a character in `base32`. -/
def base32Map (c : Char) : Option Nat := base32.findIdx? (fun x => x == c)

/-- The four cardinal directions accepted by `Neighbor`. -/
inductive Dir | n | s | e | w
deriving DecidableEq

/-- The `neighbors` lookup tables, copied verbatim from the source, including
the corrupted rows (the `tele` substring in the south/odd row and the
36-character west/even row).  The `Bool` selects the row: `true` is the
source's `'e'` row, `false` its `'o'` row. -/
def neighborTable : Dir → Bool → List Char
  | .n, true  => "p0r21436x8zb9dcf5h7kjnmqesgutwvy".toList
  | .n, false => "bc01fg45238967deuvhjyznpkmstqrwx".toList
  | .s, true  => "14365h7k9dcfesgujnmqp0r2twvyx8zb".toList
  | .s, false => "238967debc01teleuvhjyznpkmstqrwx".toList
  | .e, true  => "bc01fg45238967deuvhjyznpkmstqrwx".toList
  | .e, false => "p0r21436x8zb9dcf5h7kjnmqesgutwvy".toList
  | .w, true  => "238967debc01fg45teleuvhjyznpkmstqrwx".toList
  | .w, false => "14365h7k9dcfesgujnmqp0r2twvyx8zb".toList

/-- The `borders` lookup tables, copied verbatim from the source. -/
def borderTable : Dir → Bool → List Char
  | .n, true  => "prxz".toList
  | .n, false => "bcfguvyz".toList
  | .s, true  => "028b".toList
  | .s, false => "0145hjnp".toList
  | .e, true  => "bcfguvyz".toList
  | .e, false => "prxz".toList
  | .w, true  => "0145hjnp".toList
  | .w, false => "028b".toList

/-- `Neighbor`, fuelled so that it is structurally recursive (the Go function
recurses on the parent hash, one character shorter; `Neighbor` below supplies
`hash.length` as fuel, which always suffices, so the fuel-exhaustion branch is
unreachable).  `none` models the Go runtime panic `base32[idx]` with
`idx ≥ 32`, which is reachable because the west/even table has 36 entries. -/
def neighborAux : Nat → List Char → Dir → Option (List Char)
  | _, [], _ => some []
  | 0, _ :: _, _ => none
  | fuel + 1, c₀ :: cs, d =>
    let h := (c₀ :: cs).map Char.toLower
    let lastChar := h.getLastD ' '
    let parent := h.dropLast
    let evenRow : Bool := h.length % 2 == 1
    let parentRes : Option (List Char) :=
      if (borderTable d evenRow).contains lastChar && !parent.isEmpty then
        neighborAux fuel parent d
      else some parent
    match parentRes with
    | none => none
    | some p =>
      match (neighborTable d evenRow).findIdx? (fun c => c == lastChar) with
      | some idx =>
        match base32.get? idx with
        | some ch => some (p ++ [ch])
        | none => none
      | none => some h

/-- `Neighbor(hash, direction)` from the source. -/
def Neighbor (hash : List Char) (d : Dir) : Option (List Char) :=
  neighborAux hash.length hash d

/-- `AllNeighbors(hash)`: the center cell and its eight neighbors, in source
order; `none` if any of the nine computations panics. -/
def AllNeighbors (hash : List Char) : Option (List (List Char)) := do
  let nn ← Neighbor hash .n
  let ss ← Neighbor hash .s
  let ee ← Neighbor hash .e
  let ww ← Neighbor hash .w
  let nne ← Neighbor nn .e
  let nnw ← Neighbor nn .w
  let sse ← Neighbor ss .e
  let ssw ← Neighbor ss .w
  return [hash, nn, ss, ee, ww, nne, nnw, sse, ssw]

/-- The bisection state threaded through `Encode` and `Decode`: which axis the
next bit refines, and the current latitude/longitude bounding intervals. -/
structure BisectState where
  isEven : Bool
  minLat : ℚ
  maxLat : ℚ
  minLon : ℚ
  maxLon : ℚ
deriving DecidableEq

/-- The initial state of both `Encode` and `Decode`. -/
def initState : BisectState :=
  { isEven := true, minLat := -90, maxLat := 90, minLon := -180, maxLon := 180 }

/-- One bisection step of `Encode`: emit a bit and narrow the interval of the
current axis (longitude first, `value ≥ midpoint` selects the upper half). -/
def stepDown (lat lon : ℚ) (st : BisectState) : Bool × BisectState :=
  if st.isEven then
    let mid := (st.minLon + st.maxLon) / 2
    if lon ≥ mid then (true, { st with isEven := false, minLon := mid })
    else (false, { st with isEven := false, maxLon := mid })
  else
    let mid := (st.minLat + st.maxLat) / 2
    if lat ≥ mid then (true, { st with isEven := true, minLat := mid })
    else (false, { st with isEven := true, maxLat := mid })

/-- The bit stream emitted by `Encode`'s loop (`fuel` = number of bits,
`5 * precision` at the call site). -/
def encodeBits (lat lon : ℚ) : Nat → BisectState → List Bool
  | 0, _ => []
  | fuel + 1, st =>
    (stepDown lat lon st).1 :: encodeBits lat lon fuel (stepDown lat lon st).2

/-- The bisection state after `Encode`'s loop has emitted `fuel` bits. -/
def encodeFinal (lat lon : ℚ) : Nat → BisectState → BisectState
  | 0, st => st
  | fuel + 1, st => encodeFinal lat lon fuel (stepDown lat lon st).2

/-- Grouping of the bit stream into base-32 characters: every 5 bits, most
significant first (`ch |= 1 << (4 - bit)` in the source), become one
character.  The `getD` default is unreachable (a 5-bit value is `< 32`). -/
def bitsToChars : List Bool → List Char
  | b1 :: b2 :: b3 :: b4 :: b5 :: rest =>
    (base32.get? (16 * b1.toNat + 8 * b2.toNat + 4 * b3.toNat +
      2 * b4.toNat + b5.toNat)).getD '0' :: bitsToChars rest
  | _ => []

/-- Precision clamping at the top of `Encode`: non-positive input is coerced
to 6, input above 12 is clamped to 12. -/
def clampPrecision (precision : ℤ) : Nat :=
  if precision ≤ 0 then 6 else if precision > 12 then 12 else precision.toNat

/-- `Encode(lat, lon, precision)` from the source. -/
def Encode (lat lon : ℚ) (precision : ℤ) : List Char :=
  bitsToChars (encodeBits lat lon (5 * clampPrecision precision) initState)

/-- The five bits of a base-32 digit, most significant first
(`(cd >> j) & 1` for `j = 4 … 0`). -/
def charBits (cd : Nat) : List Bool :=
  [cd / 16 % 2 == 1, cd / 8 % 2 == 1, cd / 4 % 2 == 1, cd / 2 % 2 == 1,
   cd % 2 == 1]

/-- The bit stream consumed by `Decode`: each character is looked up in the
reverse table, characters outside the alphabet are skipped. -/
def hashBits (hash : List Char) : List Bool :=
  hash.flatMap fun c =>
    match base32Map c with
    | none => []
    | some cd => charBits cd

/-- One bit of `Decode`'s replay: narrow the interval of the current axis
(bit 1 selects the upper half). -/
def decodeStep (st : BisectState) (bit : Bool) : BisectState :=
  if st.isEven then
    let mid := (st.minLon + st.maxLon) / 2
    if bit then { st with isEven := false, minLon := mid }
    else { st with isEven := false, maxLon := mid }
  else
    let mid := (st.minLat + st.maxLat) / 2
    if bit then { st with isEven := true, minLat := mid }
    else { st with isEven := true, maxLat := mid }

/-- `Decode(hash)` from the source: replay the bit stream and return the
center of the final bounding box, as `(lat, lon)`. -/
def Decode (hash : List Char) : ℚ × ℚ :=
  let st := (hashBits hash).foldl decodeStep initState
  ((st.minLat + st.maxLat) / 2, (st.minLon + st.maxLon) / 2)

/-! ### Domain entities (`internal/domain/entities`) -/

/-- A geographic point (`Location` in `location.go`). -/
structure Location where
  latitude : ℚ
  longitude : ℚ
deriving DecidableEq

/-- A driver position record (`DriverLocation` in `location.go`). -/
structure DriverLocation where
  driverID : String
  location : Location
  geohash : List Char
  updatedAt : Nat
deriving DecidableEq

/-- Driver availability states (`DriverStatus` in `driver.go`). -/
inductive DriverStatus | available | inRide | offline
deriving DecidableEq

/-- A driver (`Driver` in `driver.go`). -/
structure Driver where
  id : String
  name : String
  email : String
  phone : String
  status : DriverStatus
  vehicleID : String
  createdAt : Nat
  updatedAt : Nat
deriving DecidableEq

/-- `NewDriver`: lifecycle starts at `Offline`. -/
def newDriver (now : Nat) (id name email phone vehicleID : String) : Driver :=
  { id := id, name := name, email := email, phone := phone,
    status := .offline, vehicleID := vehicleID, createdAt := now,
    updatedAt := now }

/-- `SetStatus`: update status and the change timestamp. -/
def setStatus (now : Nat) (d : Driver) (status : DriverStatus) : Driver :=
  { d with status := status, updatedAt := now }

/-- `GoOnline` is sugar over `SetStatus`. -/
def goOnline (now : Nat) (d : Driver) : Driver := setStatus now d .available

/-- `IsAvailable`. -/
def isAvailable (d : Driver) : Bool := d.status == .available

/-- Ride lifecycle states (`RideStatus` in `ride.go`). -/
inductive RideStatus
  | estimate | requested | matching | accepted | pickingUp | inProgress
  | completed | cancelled | failed
deriving DecidableEq

/-- The wire representation of each status (the string constants in
`ride.go`), used to build the invalid-transition error message. -/
def statusString : RideStatus → String
  | .estimate => "estimate"
  | .requested => "requested"
  | .matching => "matching"
  | .accepted => "accepted"
  | .pickingUp => "picking_up"
  | .inProgress => "in_progress"
  | .completed => "completed"
  | .cancelled => "cancelled"
  | .failed => "failed"

/-- The transition table `validTransitions` from `ride.go`; the three
terminal states map to the empty list. -/
def validTransitions : RideStatus → List RideStatus
  | .estimate => [.requested, .cancelled]
  | .requested => [.matching, .cancelled]
  | .matching => [.accepted, .failed, .cancelled]
  | .accepted => [.pickingUp, .cancelled]
  | .pickingUp => [.inProgress, .cancelled]
  | .inProgress => [.completed, .cancelled]
  | .completed => []
  | .cancelled => []
  | .failed => []

/-- A ride (`Ride` in `ride.go`).  Zero times and fares model Go's zero
values for `time.Time` and `float64`. -/
structure Ride where
  id : String
  riderID : String
  driverID : String
  status : RideStatus
  source : Location
  destination : Location
  estimatedFare : ℚ
  actualFare : ℚ
  distanceKm : ℚ
  durationMins : ℚ
  createdAt : Nat
  updatedAt : Nat
  acceptedAt : Nat
  pickedUpAt : Nat
  completedAt : Nat
deriving DecidableEq

/-- `CanTransitionTo`: membership in the transition table (every status is a
key of the Go map, so the `exists` check never fails). -/
def canTransitionTo (r : Ride) (newStatus : RideStatus) : Bool :=
  (validTransitions r.status).contains newStatus

/-- The error message built by `TransitionTo` on a rejected transition. -/
def invalidTransitionMsg (fromS toS : RideStatus) : String :=
  "invalid status transition from " ++ statusString fromS ++ " to " ++
    statusString toS

/-- `TransitionTo`: guard against the table, then update the status, the
`updatedAt` stamp, and the milestone timestamps (`acceptedAt`, `pickedUpAt`,
`completedAt` with `actualFare := estimatedFare`).  An `error` result means
the receiver was not mutated. -/
def transitionTo (now : Nat) (r : Ride) (newStatus : RideStatus) :
    Except String Ride :=
  if canTransitionTo r newStatus then
    let r1 := { r with status := newStatus, updatedAt := now }
    let r2 :=
      match newStatus with
      | .accepted => { r1 with acceptedAt := now }
      | .pickingUp => { r1 with pickedUpAt := now }
      | .completed => { r1 with completedAt := now, actualFare := r1.estimatedFare }
      | _ => r1
    .ok r2
  else
    .error (invalidTransitionMsg r.status newStatus)

/-- `AssignDriver`: record the driver and refresh `updatedAt`. -/
def assignDriver (now : Nat) (r : Ride) (driverID : String) : Ride :=
  { r with driverID := driverID, updatedAt := now }

/-! ### Lock manager (`internal/repository/memory/lock_manager.go`) -/

/-- The lock table: each key maps to the `expiresAt` instant of its entry,
if any (Go's `map[string]*lockEntry`). -/
def LockState := String → Option Nat

/-- The empty lock table of `NewLockManager`. -/
def emptyLocks : LockState := fun _ => none

/-- `AcquireLock(key, ttl)`: refuse if an entry exists whose expiry is still
in the future, otherwise install `{expiresAt = now + ttl}` and succeed.
(The source never returns a non-nil error, so the Go `(bool, error)` pair is
modelled by the `Bool` alone.) -/
def acquireLock (now : Nat) (key : String) (ttl : Nat) (locks : LockState) :
    Bool × LockState :=
  match locks key with
  | some expiresAt =>
    if now < expiresAt then (false, locks)
    else (true, fun k => if k = key then some (now + ttl) else locks k)
  | none => (true, fun k => if k = key then some (now + ttl) else locks k)

/-- `ReleaseLock(key)`: drop any entry for the key. -/
def releaseLock (key : String) (locks : LockState) : LockState :=
  fun k => if k = key then none else locks k

/-! ### Repositories and ride service
(`internal/repository/memory`, `internal/services/ride_service.go`)

The in-memory repositories store pointers, and `GetByID` hands that pointer
out, so an entity method called on a fetched entity is immediately visible
in the store even when `Update` is never called.  The embedding makes this
explicit: every entity mutation is written back to the association list at
the point of the method call. -/

/-- Replace the binding of `k` (if present) by `v`; the write-back of a
mutation through a shared pointer. -/
def updateEntry {α : Type} (l : List (String × α)) (k : String) (v : α) :
    List (String × α) :=
  l.map fun p => if p.1 = k then (k, v) else p

instance {ε α : Type} [DecidableEq ε] [DecidableEq α] :
    DecidableEq (Except ε α) := fun a b =>
  match a, b with
  | .ok x, .ok y =>
    if h : x = y then isTrue (by rw [h])
    else isFalse (by intro hc; cases hc; exact h rfl)
  | .error x, .error y =>
    if h : x = y then isTrue (by rw [h])
    else isFalse (by intro hc; cases hc; exact h rfl)
  | .ok _, .error _ => isFalse (by intro hc; cases hc)
  | .error _, .ok _ => isFalse (by intro hc; cases hc)

/-- The state touched by the ride service: the ride and driver stores. -/
structure RideSvcState where
  rides : List (String × Ride)
  drivers : List (String × Driver)
deriving DecidableEq

/-- The sentinel errors of the ride service. -/
inductive SvcErr
  | rideNotFound | invalidTransition | notAuthorized | activeRideExists
deriving DecidableEq

/-- `RideService.AcceptRide(driverID, rideID, accept)`.  `ride.Accept`
assigns the driver *before* checking the transition, and the assignment is
visible through the repository's shared pointer even on the error path. -/
def acceptRide (now : Nat) (st : RideSvcState) (driverID rideID : String)
    (accept : Bool) : Except SvcErr Ride × RideSvcState :=
  match st.rides.lookup rideID with
  | none => (.error .rideNotFound, st)
  | some ride =>
    if accept = false then (.ok ride, st)
    else
      let ride1 := assignDriver now ride driverID
      let st1 := { st with rides := updateEntry st.rides rideID ride1 }
      match transitionTo now ride1 .accepted with
      | .error _ => (.error .invalidTransition, st1)
      | .ok ride2 =>
        let st2 := { st1 with rides := updateEntry st1.rides rideID ride2 }
        let st3 :=
          match st2.drivers.lookup driverID with
          | none => st2
          | some d =>
            { st2 with
              drivers := updateEntry st2.drivers driverID (setStatus now d .inRide) }
        (.ok ride2, st3)

/-- The non-terminal statuses recognised by `GetActiveRideByRiderID`. -/
def activeStatuses : List RideStatus :=
  [.requested, .matching, .accepted, .pickingUp, .inProgress]

/-- `GetActiveRideByRiderID`: some ride of the rider whose status is
non-terminal (the Go map iteration order is abstracted to list order). -/
def getActiveRideByRiderID (rides : List (String × Ride)) (riderID : String) :
    Option Ride :=
  (rides.find? fun p =>
    p.2.riderID == riderID && activeStatuses.contains p.2.status).map (·.2)

/-- The part of `RequestRide` after the active-ride guard: fetch, authorize,
transition `Estimate → Requested`, persist. -/
def requestRideRest (now : Nat) (st : RideSvcState) (riderID rideID : String) :
    Except SvcErr Ride × RideSvcState :=
  match st.rides.lookup rideID with
  | none => (.error .rideNotFound, st)
  | some ride =>
    if ride.riderID ≠ riderID then (.error .notAuthorized, st)
    else
      match transitionTo now ride .requested with
      | .error _ => (.error .invalidTransition, st)
      | .ok ride1 =>
        (.ok ride1, { st with rides := updateEntry st.rides rideID ride1 })

/-- `RideService.RequestRide(riderID, rideID)`: refuse with
`ErrActiveRideExists` when the rider has an active ride other than the
requested one. -/
def requestRide (now : Nat) (st : RideSvcState) (riderID rideID : String) :
    Except SvcErr Ride × RideSvcState :=
  match getActiveRideByRiderID st.rides riderID with
  | some active =>
    if active.id ≠ rideID then (.error .activeRideExists, st)
    else requestRideRest now st riderID rideID
  | none => requestRideRest now st riderID rideID

/-- `RideService.FailMatching(rideID)`: fetch the ride and drive it to
`Failed`; the matching loop ignores the returned error, so only the state
effect is modelled. -/
def failMatching (now : Nat) (st : RideSvcState) (rideID : String) :
    RideSvcState :=
  match st.rides.lookup rideID with
  | none => st
  | some r =>
    match transitionTo now r .failed with
    | .error _ => st
    | .ok r1 => { st with rides := updateEntry st.rides rideID r1 }

/-! ### Spatial index (`internal/geo/spatial_index.go`) -/

/-- A candidate returned by a radius query. -/
structure DriverWithDistance where
  driver : DriverLocation
  distance : ℚ
deriving DecidableEq

/-- The spatial index: configured precision and the two-level map
`geohash → driverID → DriverPosition`, with the inner map flattened to the
list of its records. -/
structure SpatialIndex where
  precision : ℤ
  cells : List Char → List DriverLocation

/-- `FindNearbyDrivers(lat, lon, radiusKm)`: collect every driver of the
nine `AllNeighbors` cells whose distance from the query point is at most the
radius, then sort by ascending distance (`sort.Slice`; the sortedness of the
result does not depend on which correct sort the runtime uses).  The
distance function stands for `utils.HaversineDistance`, an external
floating-point collaborator, and is a parameter of the embedding; `none`
models a panic inside the neighbor computation. -/
def findNearbyDrivers (dist : ℚ → ℚ → ℚ → ℚ → ℚ) (s : SpatialIndex)
    (lat lon radiusKm : ℚ) : Option (List DriverWithDistance) :=
  match AllNeighbors (Encode lat lon s.precision) with
  | none => none
  | some neighborCells =>
    let candidates := neighborCells.flatMap fun gh =>
      (s.cells gh).filterMap fun d =>
        let dv := dist lat lon d.location.latitude d.location.longitude
        if dv ≤ radiusKm then some ⟨d, dv⟩ else none
    some (candidates.mergeSort fun a b => decide (a.distance ≤ b.distance))

/-- `UpdateLocation(driverID, lat, lon)`: remove any previous record of the
driver, insert the fresh record under `Encode(lat, lon, precision)`, return
it. -/
def SpatialIndex.updateLocation (now : Nat) (s : SpatialIndex)
    (driverID : String) (lat lon : ℚ) : DriverLocation × SpatialIndex :=
  let gh := Encode lat lon s.precision
  let removed : List Char → List DriverLocation := fun g =>
    (s.cells g).filter fun d => d.driverID ≠ driverID
  let loc : DriverLocation :=
    { driverID := driverID, location := { latitude := lat, longitude := lon },
      geohash := gh, updatedAt := now }
  (loc, { s with cells := fun g => if g = gh then removed g ++ [loc] else removed g })

/-! ### Location service (`internal/services/location_service.go`) -/

/-- The state touched by the location service. -/
structure LocSvcState where
  drivers : List (String × Driver)
  index : SpatialIndex
  locations : List (String × DriverLocation)

/-- `DriverRepository.GetOrCreate(id)`: return the existing driver, or create
one with default data and call `GoOnline` on it. -/
def getOrCreate (now : Nat) (drivers : List (String × Driver)) (id : String) :
    Driver × List (String × Driver) :=
  match drivers.lookup id with
  | some d => (d, drivers)
  | none =>
    let d := goOnline now (newDriver now id ("Driver " ++ id)
      (id ++ "@example.com") "555-0000" ("vehicle-" ++ id))
    (d, (id, d) :: drivers)

/-- `LocationService.UpdateDriverLocation(driverID, lat, lon)`: ensure the
driver exists (auto-create), lift an `Offline` driver to `Available`, update
the spatial index and the location store, return the new position record.
(None of the repository calls on this path can fail, so no error case
remains.) -/
def updateDriverLocation (now : Nat) (st : LocSvcState) (driverID : String)
    (lat lon : ℚ) : DriverLocation × LocSvcState :=
  let (driver, drivers1) := getOrCreate now st.drivers driverID
  let drivers2 :=
    if driver.status = .offline then
      updateEntry drivers1 driverID (goOnline now driver)
    else drivers1
  let (loc, index1) := st.index.updateLocation now driverID lat lon
  ( loc,
    { drivers := drivers2, index := index1,
      locations := (driverID, loc) ::
        (st.locations.filter fun p => p.1 ≠ driverID) } )

/-! ### Matching coordinator (`matching_service.go`, `matchingLoop`)

The loop is sequential code that suspends at two kinds of select points: the
non-blocking total-timeout/cancellation check at the top of each candidate
iteration, and the blocking wait for a driver response, the per-offer timer,
or the total timer.  The embedding scripts which arm of each select fires
through an environment `events : Nat → PreEvent × OfferEvent`, indexed by
candidate position; everything else is the source's control flow. -/

/-- The outcome delivered on the result channel. -/
structure MatchingResult where
  success : Bool
  driverID : String
  error : Option String
deriving DecidableEq

/-- Calls made on the notification collaborator, in order. -/
inductive Notif
  | riderNoDrivers (riderID rideID : String)
  | driverOffer (driverID rideID : String)
  | driverOfferTimedOut (driverID rideID : String)
  | riderAccepted (riderID driverID rideID : String)
deriving DecidableEq

/-- Which arm of the non-blocking select at the top of a candidate iteration
fires: the total timer, caller cancellation, or neither (`default`). -/
inductive PreEvent | totalTimeout | ctxDone | proceed
deriving DecidableEq

/-- Which arm of the blocking offer select fires: a driver response, the
per-offer timer, or the total timer. -/
inductive OfferEvent
  | response (driverID : String) (accept : Bool)
  | driverTimeout
  | totalTimeout
deriving DecidableEq

/-- The shared state the matching loop touches: the ride/driver stores and
the lock table. -/
structure MatchWorld where
  svc : RideSvcState
  locks : LockState

/-- The per-candidate loop of `matchingLoop` (`for _, dwd := range
nearbyDrivers`), including the exhausted-candidates epilogue. -/
def runCandidates (now ttl : Nat) (rideID riderID : String)
    (events : Nat → PreEvent × OfferEvent) :
    List DriverWithDistance → Nat → MatchWorld →
    MatchWorld × List MatchingResult × List Notif
  | [], _, w =>
    ( { w with svc := failMatching now w.svc rideID },
      [{ success := false, driverID := "", error := none }],
      [.riderNoDrivers riderID rideID] )
  | dwd :: rest, i, w =>
    match (events i).1 with
    | .totalTimeout =>
      ( { w with svc := failMatching now w.svc rideID },
        [{ success := false, driverID := "", error := none }],
        [.riderNoDrivers riderID rideID] )
    | .ctxDone =>
      (w, [{ success := false, driverID := "", error := some "context canceled" }], [])
    | .proceed =>
      let driverID := dwd.driver.driverID
      match w.svc.drivers.lookup driverID with
      | none => runCandidates now ttl rideID riderID events rest (i + 1) w
      | some driver =>
        if ¬ isAvailable driver then
          runCandidates now ttl rideID riderID events rest (i + 1) w
        else
          let lockKey := "driver:" ++ driverID
          let (acquired, locks1) := acquireLock now lockKey ttl w.locks
          if ¬ acquired then
            runCandidates now ttl rideID riderID events rest (i + 1)
              { w with locks := locks1 }
          else
            let w1 : MatchWorld := { w with locks := locks1 }
            match (events i).2 with
            | .response respDriverID accept =>
              if respDriverID = driverID ∧ accept then
                let w2 : MatchWorld :=
                  { w1 with locks := releaseLock lockKey w1.locks }
                let (res, svc2) := acceptRide now w2.svc driverID rideID true
                let w3 : MatchWorld := { w2 with svc := svc2 }
                match res with
                | .error _ =>
                  let (w4, results, notifs) :=
                    runCandidates now ttl rideID riderID events rest (i + 1) w3
                  (w4, results, .driverOffer driverID rideID :: notifs)
                | .ok _ =>
                  ( w3,
                    [{ success := true, driverID := driverID, error := none }],
                    [.driverOffer driverID rideID,
                     .riderAccepted riderID driverID rideID] )
              else
                let w2 : MatchWorld :=
                  { w1 with locks := releaseLock lockKey w1.locks }
                let (w4, results, notifs) :=
                  runCandidates now ttl rideID riderID events rest (i + 1) w2
                (w4, results, .driverOffer driverID rideID :: notifs)
            | .driverTimeout =>
              let w2 : MatchWorld :=
                { w1 with locks := releaseLock lockKey w1.locks }
              let (w4, results, notifs) :=
                runCandidates now ttl rideID riderID events rest (i + 1) w2
              (w4, results,
                .driverOffer driverID rideID ::
                  .driverOfferTimedOut driverID rideID :: notifs)
            | .totalTimeout =>
              let w2 : MatchWorld :=
                { w1 with
                  svc := failMatching now w1.svc rideID,
                  locks := releaseLock lockKey w1.locks }
              ( w2,
                [{ success := false, driverID := "", error := none }],
                [.driverOffer driverID rideID,
                 .riderNoDrivers riderID rideID] )

/-- `matchingLoop(ride)`: transition the ride to `Matching` (failing the run
if the transition or the repository update fails), then either handle an
erroring or empty nearby-drivers query by failing the ride, notifying the
rider and emitting one failure outcome, or walk the candidate list.  The
query result stands for `FindNearbyAvailableDrivers`, which reads shared
state concurrently and is therefore an input of the embedding. -/
def matchingLoop (now ttl : Nat) (w : MatchWorld) (ride : Ride)
    (query : Except String (List DriverWithDistance))
    (events : Nat → PreEvent × OfferEvent) :
    MatchWorld × List MatchingResult × List Notif :=
  match transitionTo now ride .matching with
  | .error e => (w, [{ success := false, driverID := "", error := some e }], [])
  | .ok ride1 =>
    let w1 : MatchWorld :=
      { w with svc := { w.svc with rides := updateEntry w.svc.rides ride.id ride1 } }
    if (w.svc.rides.lookup ride.id).isNone then
      (w1, [{ success := false, driverID := "", error := some "ride not found" }], [])
    else
      match query with
      | .error e =>
        ( { w1 with svc := failMatching now w1.svc ride.id },
          [{ success := false, driverID := "", error := some e }],
          [.riderNoDrivers ride.riderID ride.id] )
      | .ok [] =>
        ( { w1 with svc := failMatching now w1.svc ride.id },
          [{ success := false, driverID := "", error := none }],
          [.riderNoDrivers ride.riderID ride.id] )
      | .ok cands =>
        runCandidates now ttl ride.id ride.riderID events cands 0 w1

/-! ### Concrete fixtures used by witnesses and counterexamples -/

/-- A ride still in the `Estimate` state, used to exercise `AcceptRide` on a
ride whose status does not allow the transition to `Accepted`. -/
def estimateRide : Ride :=
  { id := "ride-1", riderID := "rider-1", driverID := "", status := .estimate,
    source := ⟨0, 0⟩, destination := ⟨1, 1⟩, estimatedFare := 10,
    actualFare := 0, distanceKm := 2, durationMins := 4, createdAt := 0,
    updatedAt := 0, acceptedAt := 0, pickedUpAt := 0, completedAt := 0 }

/-- A service state holding only `estimateRide`. -/
def estimateState : RideSvcState :=
  { rides := [("ride-1", estimateRide)], drivers := [] }

/-- A driver position sitting exactly at the query point's cell, used by the
C5 witness. -/
def witnessLoc : DriverLocation :=
  { driverID := "driver-1", location := ⟨0, 0⟩, geohash := ['s'],
    updatedAt := 0 }

/-- A one-driver spatial index at precision 1 for the C5 witness. -/
def witnessIndex : SpatialIndex :=
  { precision := 1, cells := fun g => if g = ['s'] then [witnessLoc] else [] }

/-! ### C1 — ride state machine -/

/-- Claim C1: for every ride and requested new status, `TransitionTo`
succeeds exactly when the (current status, new status) edge is in the
transition table, and otherwise returns the invalid-transition error without
mutating the ride (the `error` result is produced before any field is
written); the terminal statuses `Completed`, `Cancelled` and `Failed` have
no outgoing edges, so successful transitions — hence every observed status
sequence — stay inside the table (the third conjunct shows each successful
step lands on the requested, table-sanctioned status). -/
theorem transitionTo_spec (now : Nat) (r : Ride) (newStatus : RideStatus) :
    ((∃ r', transitionTo now r newStatus = .ok r') ↔
      newStatus ∈ validTransitions r.status) ∧
    (newStatus ∉ validTransitions r.status →
      transitionTo now r newStatus =
        .error (invalidTransitionMsg r.status newStatus)) ∧
    (∀ r', transitionTo now r newStatus = .ok r' → r'.status = newStatus) ∧
    validTransitions .completed = [] ∧ validTransitions .cancelled = [] ∧
    validTransitions .failed = [] := by
  have hcan : canTransitionTo r newStatus = true ↔
      newStatus ∈ validTransitions r.status := by
    simp [canTransitionTo]
  refine ⟨?_, ?_, ?_, rfl, rfl, rfl⟩
  · constructor
    · rintro ⟨r', hr'⟩
      by_contra hmem
      rw [transitionTo, if_neg] at hr'
      · exact Except.noConfusion hr'
      · simp [hcan, hmem]
    · intro hmem
      rw [transitionTo, if_pos (hcan.mpr hmem)]
      exact ⟨_, rfl⟩
  · intro hmem
    rw [transitionTo, if_neg]
    simp [hcan, hmem]
  · intro r' hr'
    rw [transitionTo] at hr'
    split at hr'
    · cases hr'
      split <;> rfl
    · exact Except.noConfusion hr'

/-- Witness for C1 at a concrete ride: from `Matching`, the transition to
`Accepted` succeeds and the transition to `Completed` is refused. -/
theorem transitionTo_spec_witness :
    (∃ r', transitionTo 7
      { id := "ride-1", riderID := "rider-1", driverID := "", status := .matching,
        source := ⟨0, 0⟩, destination := ⟨1, 1⟩, estimatedFare := 10,
        actualFare := 0, distanceKm := 2, durationMins := 4, createdAt := 0,
        updatedAt := 0, acceptedAt := 0, pickedUpAt := 0, completedAt := 0 }
      .accepted = .ok r') ∧
    transitionTo 7
      { id := "ride-1", riderID := "rider-1", driverID := "", status := .matching,
        source := ⟨0, 0⟩, destination := ⟨1, 1⟩, estimatedFare := 10,
        actualFare := 0, distanceKm := 2, durationMins := 4, createdAt := 0,
        updatedAt := 0, acceptedAt := 0, pickedUpAt := 0, completedAt := 0 }
      .completed = .error (invalidTransitionMsg .matching .completed) := by
  constructor
  · exact (transitionTo_spec 7 _ .accepted).1.mpr (by decide)
  · exact (transitionTo_spec 7 _ .completed).2.1 (by decide)

/-! ### C3 — lock acquisition -/

/-- Claim C3: `AcquireLock(key, ttl)` returns true and installs an entry
expiring at `now + ttl` exactly when no entry for the key exists or the
existing entry is expired (`expiresAt ≤ now`); otherwise it returns false
and leaves the table — in particular the existing entry — unchanged.  The
table maps each key to at most one entry by construction, so at most one
live entry per key can exist. -/
theorem acquireLock_spec (locks : LockState) (key : String) (ttl now : Nat) :
    ((acquireLock now key ttl locks).1 = true ↔
      (locks key = none ∨ ∃ e, locks key = some e ∧ e ≤ now)) ∧
    ((acquireLock now key ttl locks).1 = true →
      (acquireLock now key ttl locks).2 key = some (now + ttl) ∧
      ∀ k, k ≠ key → (acquireLock now key ttl locks).2 k = locks k) ∧
    ((acquireLock now key ttl locks).1 = false →
      (acquireLock now key ttl locks).2 = locks ∧
      ∃ e, locks key = some e ∧ now < e) := by
  rcases h : locks key with _ | e
  · refine ⟨by simp [acquireLock, h], fun _ => ⟨by simp [acquireLock, h], ?_⟩,
      by simp [acquireLock, h]⟩
    intro k hk; simp [acquireLock, h, hk]
  · by_cases he : now < e
    · refine ⟨?_, ?_, ?_⟩
      · simp only [acquireLock, h, he, if_true]
        constructor
        · intro hcontra; exact absurd hcontra (by simp)
        · rintro (hnone | ⟨e', he', hle⟩)
          · exact Option.noConfusion hnone
          · cases he'; omega
      · intro htrue; exfalso; simp [acquireLock, h, he] at htrue
      · intro _
        constructor
        · simp [acquireLock, h, he]
        · exact ⟨e, rfl, he⟩
    · refine ⟨?_, ?_, ?_⟩
      · simp only [acquireLock, h, he, if_false]
        constructor
        · intro _; exact .inr ⟨e, rfl, by omega⟩
        · intro _; trivial
      · intro _
        refine ⟨by simp [acquireLock, h, he], fun k hk => ?_⟩
        simp [acquireLock, h, he, hk]
      · intro hfalse; exfalso; simp [acquireLock, h, he] at hfalse

/-- Witness for C3: on an empty table the lock is acquired, the installed
entry expires at `now + ttl`, and an immediate second acquisition of the
same key is refused. -/
theorem acquireLock_spec_witness :
    (acquireLock 10 "driver:d1" 5 emptyLocks).1 = true ∧
    (acquireLock 10 "driver:d1" 5 emptyLocks).2 "driver:d1" = some 15 ∧
    (acquireLock 12 "driver:d1" 5
      (acquireLock 10 "driver:d1" 5 emptyLocks).2).1 = false := by
  have h1 := (acquireLock_spec emptyLocks "driver:d1" 5 10).1.mpr
    (.inl rfl)
  refine ⟨h1, ?_, ?_⟩
  · exact ((acquireLock_spec emptyLocks "driver:d1" 5 10).2.1 h1).1
  · have h2 := ((acquireLock_spec emptyLocks "driver:d1" 5 10).2.1 h1).1
    by_contra hfalse
    have h3 := (acquireLock_spec
      (acquireLock 10 "driver:d1" 5 emptyLocks).2 "driver:d1" 5 12).1.mp
      (by revert hfalse; cases (acquireLock 12 "driver:d1" 5
        (acquireLock 10 "driver:d1" 5 emptyLocks).2).1 <;> simp)
    rcases h3 with h3 | ⟨e, he, hle⟩
    · rw [h2] at h3; exact Option.noConfusion h3
    · rw [h2] at he; cases he; omega

/-! ### C2 — driver acceptance is not rolled back -/

/-- Counterexample to C2: `AcceptRide` on a ride in `Estimate` does return
the invalid-transition error, but the ride stored in the repository has its
`driverID` field assigned to the requesting driver — `ride.Accept` runs
`AssignDriver` before checking the transition, the repository hands out a
shared pointer, and the service performs no rollback.  The claim that the
ride is left unchanged with `driverID` unassigned is therefore false. -/
theorem acceptRide_not_rolled_back_cex :
    (acceptRide 5 estimateState "driver-9" "ride-1" true).1 =
      .error .invalidTransition ∧
    ((acceptRide 5 estimateState "driver-9" "ride-1" true).2.rides.lookup
      "ride-1").map Ride.driverID = some "driver-9" ∧
    ¬ ((acceptRide 5 estimateState "driver-9" "ride-1" true).2.rides.lookup
      "ride-1").map Ride.driverID = some "" := by
  decide

/-- Claim C2, amended: for every ride whose current status does not allow
the transition to `Accepted` (any status other than `Matching`),
`AcceptRide(driverID, rideID, accept=true)` returns the invalid-transition
error and leaves the ride's *status* unchanged, but the ride's `driverID`
field has already been assigned to the requesting driver (and `updatedAt`
refreshed); the assignment is not rolled back, and the driver's own status
is untouched. -/
theorem acceptRide_invalid_assigns_driver (now : Nat) (st : RideSvcState)
    (driverID rideID : String) (ride : Ride)
    (hlk : st.rides.lookup rideID = some ride)
    (hst : ride.status ≠ .matching) :
    acceptRide now st driverID rideID true =
      (.error .invalidTransition,
       { st with
         rides := updateEntry st.rides rideID (assignDriver now ride driverID) }) := by
  have hcan : canTransitionTo (assignDriver now ride driverID) .accepted = false := by
    cases h : ride.status <;>
      simp_all [canTransitionTo, validTransitions, assignDriver]
  simp [acceptRide, hlk, transitionTo, hcan]

/-- Witness for the amended C2 at the concrete `Estimate`-state ride. -/
theorem acceptRide_invalid_assigns_driver_witness :
    acceptRide 5 estimateState "driver-9" "ride-1" true =
      (.error .invalidTransition,
       { estimateState with
         rides := updateEntry estimateState.rides "ride-1"
           (assignDriver 5 estimateRide "driver-9") }) :=
  acceptRide_invalid_assigns_driver 5 estimateState "driver-9" "ride-1"
    estimateRide (by decide) (by decide)

/-! ### C6 — geohash neighbor round-trips -/

/-- Counterexample to C6: for the single-character geohash `k` — an interior
cell, its bounding box is lat `[-45, 0]`, lon `[0, 45]`, nowhere near the
antimeridian or a pole, as the decoded center `(-22.5, 22.5)` records —
`neighbor(neighbor("k", e), w)` returns `"y"`, not `"k"`: the east step maps
`k ↦ s`, but the west table row used on the way back is the corrupted
36-character `"238967debc01fg45teleuvhjyznpkmstqrwx"` string, which maps
`s ↦ y`.  The east/west round-trip of the claim therefore fails off the
wrap boundary. -/
theorem neighbor_ew_roundtrip_cex :
    (Neighbor ['k'] Dir.e).bind (fun h => Neighbor h Dir.w) = some ['y'] ∧
    (Neighbor ['k'] Dir.e).bind (fun h => Neighbor h Dir.w) ≠ some ['k'] ∧
    Decode ['k'] = (-45/2, 45/2) := by
  refine ⟨by decide, by decide, ?_⟩
  have hb : hashBits ['k'] = [true, false, false, true, false] := by decide
  simp only [Decode, hb, List.foldl_cons, List.foldl_nil, decodeStep, initState]
  norm_num

/-- Claim C6, amended: the north/south round-trip
`neighbor(neighbor(h, n), s) = h` holds for every single-character geohash
`h` over the base-32 alphabet, wrap cases included (the north/even and
south/even rows are mutually inverse lookup tables); the east/west
round-trip `neighbor(neighbor(h, e), w) = h` fails even for interior cells
(see the counterexample at `h = "k"`), because the west/even row of the
`neighbors` table is corrupted — it has 36 characters including the stray
substring `tele` — and the south/odd row is likewise corrupted, which also
breaks the north/south round-trip for longer hashes. -/
theorem neighbor_ns_roundtrip_single :
    ∀ c ∈ base32,
      (Neighbor [c] Dir.n).bind (fun h => Neighbor h Dir.s) = some [c] := by
  decide

/-- Witness for the amended C6 at `h = "k"`. -/
theorem neighbor_ns_roundtrip_single_witness :
    (Neighbor ['k'] Dir.n).bind (fun h => Neighbor h Dir.s) = some ['k'] :=
  neighbor_ns_roundtrip_single 'k' (by decide)

/-! ### C9 — encode output length and alphabet -/

/-- `Encode`'s loop emits exactly one bit per iteration. -/
theorem encodeBits_length (lat lon : ℚ) :
    ∀ (n : Nat) (st : BisectState), (encodeBits lat lon n st).length = n := by
  intro n
  induction n with
  | zero => intro st; rfl
  | succ n ih => intro st; simp [encodeBits, ih]

/-- Grouping a bit stream of length `5 * k` yields `k` characters. -/
theorem bitsToChars_length :
    ∀ (k : Nat) (bits : List Bool), bits.length = 5 * k →
      (bitsToChars bits).length = k := by
  intro k
  induction k with
  | zero =>
    intro bits h
    rcases bits with _ | ⟨b1, rest⟩
    · rfl
    · simp at h
  | succ k ih =>
    intro bits h
    rcases bits with _ | ⟨b1, _ | ⟨b2, _ | ⟨b3, _ | ⟨b4, _ | ⟨b5, rest⟩⟩⟩⟩⟩
    · simp at h
    · simp at h; omega
    · simp at h; omega
    · simp at h; omega
    · simp at h; omega
    · simp only [bitsToChars, List.length_cons]
      rw [ih rest (by simp at h; omega)]

/-- The character emitted for any 5-bit group is in the alphabet (the `getD`
default `'0'` also is). -/
theorem getD_base32_mem (v : Nat) : (base32.get? v).getD '0' ∈ base32 := by
  cases h : base32.get? v with
  | none => simp; decide
  | some c => simpa using List.get?_mem h

/-- Every character of a grouped bit stream is in the alphabet. -/
theorem bitsToChars_mem :
    ∀ (bits : List Bool), ∀ c ∈ bitsToChars bits, c ∈ base32
  | [] => by simp [bitsToChars]
  | [b1] => by simp [bitsToChars]
  | [b1, b2] => by simp [bitsToChars]
  | [b1, b2, b3] => by simp [bitsToChars]
  | [b1, b2, b3, b4] => by simp [bitsToChars]
  | b1 :: b2 :: b3 :: b4 :: b5 :: rest => by
    intro c hc
    simp only [bitsToChars, List.mem_cons] at hc
    rcases hc with hc | hc
    · subst hc; exact getD_base32_mem _
    · exact bitsToChars_mem rest c hc

/-- Claim C9: for every latitude, longitude and integer precision argument,
`Encode` returns a string of length 6 when the precision is non-positive, of
length 12 when it exceeds 12, and of length equal to the precision
otherwise, and every character it emits is drawn from the base-32 alphabet
`0123456789bcdefghjkmnpqrstuvwxyz`. -/
theorem encode_length_alphabet (lat lon : ℚ) (precision : ℤ) :
    (precision ≤ 0 → (Encode lat lon precision).length = 6) ∧
    (12 < precision → (Encode lat lon precision).length = 12) ∧
    (0 < precision → precision ≤ 12 →
      ((Encode lat lon precision).length : ℤ) = precision) ∧
    ∀ c ∈ Encode lat lon precision, c ∈ base32 := by
  have hlen : (Encode lat lon precision).length = clampPrecision precision := by
    unfold Encode
    exact bitsToChars_length _ _ (encodeBits_length lat lon _ _)
  refine ⟨?_, ?_, ?_, ?_⟩
  · intro h; rw [hlen]; simp [clampPrecision, h]
  · intro h
    rw [hlen]
    have h0 : ¬ precision ≤ 0 := by omega
    simp [clampPrecision, h0, h]
  · intro h0 h12
    rw [hlen]
    have h0' : ¬ precision ≤ 0 := by omega
    have h12' : ¬ 12 < precision := by omega
    simp [clampPrecision, h0', h12']
    omega
  · intro c hc
    exact bitsToChars_mem _ c hc

/-- Witness for C9 at concrete precisions 0, 13 and 7 (the rides' home
coordinates are irrelevant; `(1/3, -2/3)` exercises non-dyadic input). -/
theorem encode_length_alphabet_witness :
    (Encode (1/3) (-2/3) 0).length = 6 ∧
    (Encode (1/3) (-2/3) 13).length = 12 ∧
    ((Encode (1/3) (-2/3) 7).length : ℤ) = 7 := by
  refine ⟨?_, ?_, ?_⟩
  · exact (encode_length_alphabet (1/3) (-2/3) 0).1 (by norm_num)
  · exact (encode_length_alphabet (1/3) (-2/3) 13).2.1 (by norm_num)
  · exact (encode_length_alphabet (1/3) (-2/3) 7).2.2.1 (by norm_num) (by norm_num)

/-! ### C7 — active-ride conflict -/

/-- Claim C7: for every rider who already has a ride in one of the
non-terminal statuses, calling `RequestRide` for a second, different ride
that is still in the `Estimate` state returns the `ActiveRideExists` error
and leaves the state — in particular the second ride, still in `Estimate` —
unchanged.  The hypotheses are the repository invariants: keys are unique
and each ride is stored under its own id. -/
theorem requestRide_active_conflict (now : Nat) (st : RideSvcState)
    (riderID rideID : String)
    (hkeys : (st.rides.map Prod.fst).Nodup)
    (hcoh : ∀ p ∈ st.rides, p.1 = p.2.id)
    (hactive : ∃ p ∈ st.rides, p.2.riderID = riderID ∧
      p.2.status ∈ activeStatuses)
    (hsecond : ∃ q ∈ st.rides, q.1 = rideID ∧ q.2.status = .estimate) :
    requestRide now st riderID rideID = (.error .activeRideExists, st) := by
  obtain ⟨p, hpmem, hprid, hpact⟩ := hactive
  obtain ⟨q, hqmem, hqid, hqest⟩ := hsecond
  have hsome : (st.rides.find? fun x =>
      x.2.riderID == riderID && activeStatuses.contains x.2.status).isSome := by
    rw [List.find?_isSome]
    exact ⟨p, hpmem, by simp [hprid, hpact]⟩
  obtain ⟨p₀, hp₀⟩ := Option.isSome_iff_exists.mp hsome
  have hp₀mem := List.mem_of_find?_eq_some hp₀
  have hp₀pred := List.find?_some hp₀
  have hp₀act : p₀.2.status ∈ activeStatuses := by
    simp only [Bool.and_eq_true, beq_iff_eq] at hp₀pred
    simpa using hp₀pred.2
  have hne : p₀.2.id ≠ rideID := by
    intro heq
    have hpq : p₀ = q := by
      refine List.inj_on_of_nodup_map hkeys hp₀mem hqmem ?_
      rw [hcoh p₀ hp₀mem, heq, hqid]
    rw [hpq, hqest] at hp₀act
    simp [activeStatuses] at hp₀act
  unfold requestRide getActiveRideByRiderID
  rw [hp₀]
  simp [hne]

/-- Witness for C7: rider `rider-1` has `ride-1` in `Matching` and requests
the estimated `ride-2`. -/
theorem requestRide_active_conflict_witness :
    requestRide 9
      { rides := [("ride-1", { estimateRide with status := .matching }),
                  ("ride-2", { estimateRide with id := "ride-2" })],
        drivers := [] } "rider-1" "ride-2" =
      (.error .activeRideExists,
       { rides := [("ride-1", { estimateRide with status := .matching }),
                   ("ride-2", { estimateRide with id := "ride-2" })],
         drivers := [] }) := by
  apply requestRide_active_conflict
  · decide
  · decide
  · exact ⟨("ride-1", { estimateRide with status := .matching }),
      by decide, by decide, by decide⟩
  · exact ⟨("ride-2", { estimateRide with id := "ride-2" }),
      by decide, by decide, by decide⟩

/-! ### C10 — auto-created drivers are immediately available -/

/-- Claim C10: for every driver id not present in the driver store,
`UpdateDriverLocation` auto-creates the driver and leaves it `Available`
(`GetOrCreate` calls `GoOnline` on the newly created driver), so a driver
that has never explicitly gone online is eligible for ride offers —
`IsAvailable`, the predicate `FindNearbyAvailableDrivers` filters by, holds —
right after its first location ping, whose position record is returned. -/
theorem updateDriverLocation_autocreates (now : Nat) (st : LocSvcState)
    (driverID : String) (lat lon : ℚ)
    (habsent : st.drivers.lookup driverID = none) :
    ((updateDriverLocation now st driverID lat lon).2.drivers.lookup
      driverID).map Driver.status = some .available ∧
    ((updateDriverLocation now st driverID lat lon).2.drivers.lookup
      driverID).map isAvailable = some true ∧
    (updateDriverLocation now st driverID lat lon).1.driverID = driverID := by
  simp [updateDriverLocation, getOrCreate, habsent, goOnline, setStatus,
    newDriver, isAvailable, List.lookup, SpatialIndex.updateLocation]

/-- Witness for C10: first ping of an unknown driver on an empty state. -/
theorem updateDriverLocation_autocreates_witness :
    ((updateDriverLocation 3
        { drivers := [],
          index := { precision := 1, cells := fun _ => [] },
          locations := [] } "driver-7" 0 0).2.drivers.lookup
      "driver-7").map Driver.status = some .available :=
  (updateDriverLocation_autocreates 3
    { drivers := [], index := { precision := 1, cells := fun _ => [] },
      locations := [] } "driver-7" 0 0 (by decide)).1

/-! ### C4 — empty or failed driver query fails the run -/

/-- Writing back through a shared pointer: if the key is bound, the updated
store binds it to the new value. -/
theorem lookup_updateEntry_self {α : Type} :
    ∀ (l : List (String × α)) (k : String) (v : α),
      (l.lookup k).isSome → (updateEntry l k v).lookup k = some v := by
  intro l
  induction l with
  | nil => intro k v h; simp [List.lookup] at h
  | cons p t ih =>
    intro k v h
    obtain ⟨a, b⟩ := p
    by_cases hak : a = k
    · subst hak
      have harm : (if ((a, b) : String × α).1 = a then (a, v) else (a, b)) =
          (a, v) := by simp
      simp only [updateEntry, List.map_cons, harm]
      simp [List.lookup]
    · have hka : (k == a) = false := by
        simp [beq_eq_false_iff_ne]; exact fun hc => hak hc.symm
      simp only [updateEntry, List.map_cons, if_neg hak] at *
      simp only [List.lookup, hka] at h ⊢
      exact ih k v h

/-- Claim C4: whenever the nearby-available-drivers query errors or returns
an empty candidate list (after the ride has successfully entered
`Matching`), the matching run transitions the ride to `Failed`, notifies
exactly one `RiderNoDriversAvailable`, and emits exactly one failure outcome
with `success = false` before returning. -/
theorem matchingLoop_query_empty_fails (now ttl : Nat) (w : MatchWorld)
    (ride : Ride) (query : Except String (List DriverWithDistance))
    (events : Nat → PreEvent × OfferEvent) (errMsg : String)
    (hreq : ride.status = .requested)
    (hmem : (w.svc.rides.lookup ride.id).isSome)
    (hquery : query = .error errMsg ∨ query = .ok []) :
    (∃ res, (matchingLoop now ttl w ride query events).2.1 = [res] ∧
      res.success = false) ∧
    (matchingLoop now ttl w ride query events).2.2 =
      [.riderNoDrivers ride.riderID ride.id] ∧
    ((matchingLoop now ttl w ride query events).1.svc.rides.lookup
      ride.id).map Ride.status = some .failed := by
  have htrans : transitionTo now ride .matching =
      .ok { ride with status := .matching, updatedAt := now } := by
    simp [transitionTo, canTransitionTo, hreq, validTransitions]
  have h1 : (updateEntry w.svc.rides ride.id
      { ride with status := .matching, updatedAt := now }).lookup ride.id =
      some { ride with status := .matching, updatedAt := now } :=
    lookup_updateEntry_self _ _ _ hmem
  have hfail : transitionTo now
      { ride with status := .matching, updatedAt := now } .failed =
      .ok { ride with status := .failed, updatedAt := now } := by
    simp [transitionTo, canTransitionTo, validTransitions]
  have h2 : (updateEntry (updateEntry w.svc.rides ride.id
        { ride with status := .matching, updatedAt := now }) ride.id
        { ride with status := .failed, updatedAt := now }).lookup ride.id =
      some { ride with status := .failed, updatedAt := now } :=
    lookup_updateEntry_self _ _ _ (by rw [h1]; rfl)
  obtain ⟨r0, hr0⟩ := Option.isSome_iff_exists.mp hmem
  rcases hquery with hq | hq <;> subst hq <;>
    simp [matchingLoop, htrans, hr0, failMatching, h1, hfail, h2]

/-- Witness for C4: a requested ride and an empty candidate list. -/
theorem matchingLoop_query_empty_fails_witness :
    (matchingLoop 2 4
      { svc := { rides := [("ride-1", { estimateRide with status := .requested })],
                 drivers := [] },
        locks := emptyLocks }
      { estimateRide with status := .requested }
      (.ok []) (fun _ => (.proceed, .driverTimeout))).2.2 =
      [.riderNoDrivers "rider-1" "ride-1"] :=
  (matchingLoop_query_empty_fails 2 4 _ _ _ _ "radius query failed"
    (by decide) (by decide) (.inr rfl)).2.1

/-! ### C5 — radius queries are sorted and bounded -/

/-- Claim C5: for every spatial-index state, query point and radius, a list
`L` returned by `FindNearbyDrivers` is sorted by ascending distance, every
element's recorded distance — the distance function applied to the query
point and the element's stored coordinates — is at most `radiusKm`, and
every element comes from one of the nine `AllNeighbors` cells of the query
point's cell.  The theorem holds for every distance function, in particular
for the external `HaversineDistance` collaborator the source passes. -/
theorem findNearbyDrivers_spec (dist : ℚ → ℚ → ℚ → ℚ → ℚ) (s : SpatialIndex)
    (lat lon radiusKm : ℚ) (L : List DriverWithDistance)
    (h : findNearbyDrivers dist s lat lon radiusKm = some L) :
    L.Pairwise (fun a b => a.distance ≤ b.distance) ∧
    ∀ x ∈ L, x.distance ≤ radiusKm ∧
      x.distance = dist lat lon x.driver.location.latitude
        x.driver.location.longitude ∧
      ∃ gh, (∃ nbs, AllNeighbors (Encode lat lon s.precision) = some nbs ∧
        gh ∈ nbs) ∧ x.driver ∈ s.cells gh := by
  unfold findNearbyDrivers at h
  cases hnb : AllNeighbors (Encode lat lon s.precision) with
  | none => rw [hnb] at h; exact Option.noConfusion h
  | some nbs =>
    rw [hnb] at h
    simp only [Option.some.injEq] at h
    subst h
    constructor
    · have hs := @List.sorted_mergeSort DriverWithDistance
        (fun a b => decide (a.distance ≤ b.distance))
        (fun a b c hab hbc => decide_eq_true
          (le_trans (of_decide_eq_true hab) (of_decide_eq_true hbc)))
        (fun a b => by
          rcases le_total a.distance b.distance with hab | hab <;> simp [hab])
        (nbs.flatMap fun gh =>
          (s.cells gh).filterMap fun d =>
            let dv := dist lat lon d.location.latitude d.location.longitude
            if dv ≤ radiusKm then some ⟨d, dv⟩ else none)
      exact hs.imp fun hle => of_decide_eq_true hle
    · intro x hx
      have hx' := List.mem_mergeSort.mp hx
      obtain ⟨gh, hgh, hxcell⟩ := List.mem_flatMap.mp hx'
      obtain ⟨d, hd, hdx⟩ := List.mem_filterMap.mp hxcell
      by_cases hdv : dist lat lon d.location.latitude d.location.longitude ≤ radiusKm
      · simp only [hdv, if_pos] at hdx
        cases hdx
        exact ⟨hdv, rfl, gh, ⟨nbs, rfl, hgh⟩, hd⟩
      · simp only [hdv, if_neg] at hdx
        exact Option.noConfusion hdx

/-- Witness for C5: on the concrete one-driver index, with a constant
distance function, the query evaluates to the single candidate and the
theorem's sortedness and bound conclusions hold for it. -/
theorem findNearbyDrivers_spec_witness :
    ([(⟨witnessLoc, 0⟩ : DriverWithDistance)]).Pairwise
      (fun a b => a.distance ≤ b.distance) ∧
    ∀ x ∈ [(⟨witnessLoc, 0⟩ : DriverWithDistance)], x.distance ≤ 1 := by
  have hbits : encodeBits 0 0 5 initState =
      [true, true, false, false, false] := by
    norm_num [encodeBits, stepDown, initState]
  have henc : Encode 0 0 1 = ['s'] := by
    unfold Encode
    rw [show 5 * clampPrecision 1 = 5 by decide, hbits]
    decide
  have hnb : AllNeighbors ['s'] =
      some [['s'], ['t'], ['e'], ['u'], ['y'], ['v'], ['h'], ['g'], ['7']] := by
    decide
  have hq : findNearbyDrivers (fun _ _ _ _ => 0) witnessIndex 0 0 1 =
      some [⟨witnessLoc, 0⟩] := by
    unfold findNearbyDrivers
    rw [show witnessIndex.precision = (1 : ℤ) from rfl, henc, hnb]
    simp +decide [witnessIndex, witnessLoc]
  have hspec := findNearbyDrivers_spec (fun _ _ _ _ => 0) witnessIndex 0 0 1
    [⟨witnessLoc, 0⟩] hq
  exact ⟨hspec.1, fun x hx => (hspec.2 x hx).1⟩

/-! ### C8 — decode-of-encode error

`Decode` replays exactly the bit stream `Encode` emitted, so the decoded
bounding box is the final bisection state of the encoder; the input point
never leaves that box, whose width halves once per axis every two bits. -/

/-- Replaying an emitted bit performs the same interval update the encoder
performed. -/
theorem decodeStep_stepDown (lat lon : ℚ) (st : BisectState) :
    decodeStep st (stepDown lat lon st).1 = (stepDown lat lon st).2 := by
  unfold decodeStep stepDown
  by_cases he : st.isEven
  · by_cases hc : lon ≥ (st.minLon + st.maxLon) / 2 <;> simp [he, hc]
  · by_cases hc : lat ≥ (st.minLat + st.maxLat) / 2 <;> simp [he, hc]

/-- Folding the decoder over the emitted bit stream reaches the encoder's
final state. -/
theorem foldl_encodeBits (lat lon : ℚ) :
    ∀ (n : Nat) (st : BisectState),
      (encodeBits lat lon n st).foldl decodeStep st =
        encodeFinal lat lon n st := by
  intro n
  induction n with
  | zero => intro st; rfl
  | succ n ih =>
    intro st
    simp only [encodeBits, List.foldl_cons, decodeStep_stepDown, encodeFinal]
    exact ih _

/-- A 5-bit group is recovered from its numeric value. -/
theorem charBits_group (b1 b2 b3 b4 b5 : Bool) :
    charBits (16 * b1.toNat + 8 * b2.toNat + 4 * b3.toNat + 2 * b4.toNat +
      b5.toNat) = [b1, b2, b3, b4, b5] := by
  cases b1 <;> cases b2 <;> cases b3 <;> cases b4 <;> cases b5 <;> decide

/-- The reverse table inverts indexing into the alphabet. -/
theorem base32Map_getD : ∀ v < 32,
    base32Map ((base32.get? v).getD '0') = some v := by decide

/-- Ungrouping inverts grouping on bit streams of length divisible by 5. -/
theorem hashBits_bitsToChars :
    ∀ (bits : List Bool), bits.length % 5 = 0 →
      hashBits (bitsToChars bits) = bits
  | [] => fun _ => rfl
  | [b1] => fun h => absurd h (by simp)
  | [b1, b2] => fun h => absurd h (by simp)
  | [b1, b2, b3] => fun h => absurd h (by simp)
  | [b1, b2, b3, b4] => fun h => absurd h (by simp)
  | b1 :: b2 :: b3 :: b4 :: b5 :: rest => fun h => by
    have hrest : rest.length % 5 = 0 := by
      simp only [List.length_cons] at h; omega
    have hv : 16 * b1.toNat + 8 * b2.toNat + 4 * b3.toNat + 2 * b4.toNat +
        b5.toNat < 32 := by
      cases b1 <;> cases b2 <;> cases b3 <;> cases b4 <;> cases b5 <;> decide
    have ih := hashBits_bitsToChars rest hrest
    simp only [hashBits] at ih
    simp only [bitsToChars, hashBits, List.flatMap_cons, base32Map_getD _ hv,
      charBits_group, ih]
    rfl

/-- `Decode ∘ Encode` lands on the center of the encoder's final bounding
box. -/
theorem Decode_Encode (lat lon : ℚ) (p : ℤ) :
    Decode (Encode lat lon p) =
      (((encodeFinal lat lon (5 * clampPrecision p) initState).minLat +
        (encodeFinal lat lon (5 * clampPrecision p) initState).maxLat) / 2,
       ((encodeFinal lat lon (5 * clampPrecision p) initState).minLon +
        (encodeFinal lat lon (5 * clampPrecision p) initState).maxLon) / 2) := by
  unfold Decode Encode
  rw [hashBits_bitsToChars _ (by rw [encodeBits_length]; omega),
    foldl_encodeBits]

/-- One bisection step keeps the input point inside the bounding box. -/
theorem stepDown_mem (lat lon : ℚ) (st : BisectState)
    (h1 : st.minLat ≤ lat) (h2 : lat ≤ st.maxLat)
    (h3 : st.minLon ≤ lon) (h4 : lon ≤ st.maxLon) :
    (stepDown lat lon st).2.minLat ≤ lat ∧
    lat ≤ (stepDown lat lon st).2.maxLat ∧
    (stepDown lat lon st).2.minLon ≤ lon ∧
    lon ≤ (stepDown lat lon st).2.maxLon := by
  unfold stepDown
  by_cases he : st.isEven
  · by_cases hc : lon ≥ (st.minLon + st.maxLon) / 2 <;>
      (simp [he, hc]; repeat' apply And.intro) <;> linarith
  · by_cases hc : lat ≥ (st.minLat + st.maxLat) / 2 <;>
      (simp [he, hc]; repeat' apply And.intro) <;> linarith

/-- The encoder's final bounding box still contains the input point. -/
theorem encodeFinal_mem (lat lon : ℚ) :
    ∀ (n : Nat) (st : BisectState),
      st.minLat ≤ lat → lat ≤ st.maxLat → st.minLon ≤ lon →
      lon ≤ st.maxLon →
      (encodeFinal lat lon n st).minLat ≤ lat ∧
      lat ≤ (encodeFinal lat lon n st).maxLat ∧
      (encodeFinal lat lon n st).minLon ≤ lon ∧
      lon ≤ (encodeFinal lat lon n st).maxLon := by
  intro n
  induction n with
  | zero => intro st h1 h2 h3 h4; exact ⟨h1, h2, h3, h4⟩
  | succ n ih =>
    intro st h1 h2 h3 h4
    simp only [encodeFinal]
    obtain ⟨g1, g2, g3, g4⟩ := stepDown_mem lat lon st h1 h2 h3 h4
    exact ih _ g1 g2 g3 g4

/-- Two consecutive bisection steps (starting on the longitude axis) halve
both interval widths and return to the longitude axis. -/
theorem stepDown_two_width (lat lon : ℚ) (st : BisectState)
    (he : st.isEven = true) :
    (stepDown lat lon (stepDown lat lon st).2).2.isEven = true ∧
    (stepDown lat lon (stepDown lat lon st).2).2.maxLat -
      (stepDown lat lon (stepDown lat lon st).2).2.minLat =
      (st.maxLat - st.minLat) / 2 ∧
    (stepDown lat lon (stepDown lat lon st).2).2.maxLon -
      (stepDown lat lon (stepDown lat lon st).2).2.minLon =
      (st.maxLon - st.minLon) / 2 := by
  unfold stepDown
  by_cases hc1 : lon ≥ (st.minLon + st.maxLon) / 2 <;> simp only [he, hc1] <;>
    simp only [if_true, if_false, ite_true, ite_false] <;>
    by_cases hc2 : lat ≥ (st.minLat + st.maxLat) / 2 <;>
      simp [hc2] <;> constructor <;> ring

/-- After `2 * k` bits the bounding-box widths have halved `k` times. -/
theorem encodeFinal_width (lat lon : ℚ) :
    ∀ (k : Nat) (st : BisectState), st.isEven = true →
      (encodeFinal lat lon (2 * k) st).isEven = true ∧
      (encodeFinal lat lon (2 * k) st).maxLat -
        (encodeFinal lat lon (2 * k) st).minLat =
        (st.maxLat - st.minLat) / 2 ^ k ∧
      (encodeFinal lat lon (2 * k) st).maxLon -
        (encodeFinal lat lon (2 * k) st).minLon =
        (st.maxLon - st.minLon) / 2 ^ k := by
  intro k
  induction k with
  | zero =>
    intro st he
    simp [Nat.mul_zero, encodeFinal, pow_zero, div_one, he]
  | succ k ih =>
    intro st he
    rw [show 2 * (k + 1) = 2 * k + 1 + 1 by ring]
    simp only [encodeFinal]
    obtain ⟨w0, w1, w2⟩ := stepDown_two_width lat lon st he
    obtain ⟨i0, i1, i2⟩ := ih _ w0
    refine ⟨i0, ?_, ?_⟩
    · rw [i1, w1, div_div, ← pow_succ']
    · rw [i2, w2, div_div, ← pow_succ']

/-- Counterexample to C8: at the input `(22.5, 22.5)` — the exact center of
the precision-1 cell `s` — the decode-of-encode error is `0` at `p = 1` in
both coordinates, but strictly positive at `p = 2`, so the error does *not*
decrease monotonically as `p` increases. -/
theorem decode_encode_not_monotone_cex :
    Decode (Encode (45/2) (45/2) 1) = (45/2, 45/2) ∧
    Decode (Encode (45/2) (45/2) 2) = (405/16, 225/8) ∧
    |(45/2 : ℚ) - 45/2| < |(45/2 : ℚ) - 405/16| ∧
    |(45/2 : ℚ) - 45/2| < |(45/2 : ℚ) - 225/8| := by
  refine ⟨?_, ?_, ?_, ?_⟩
  · rw [Decode_Encode, show 5 * clampPrecision 1 = 5 by decide]
    norm_num [encodeFinal, stepDown, initState]
  · rw [Decode_Encode, show 5 * clampPrecision 2 = 10 by decide]
    norm_num [encodeFinal, stepDown, initState]
  · rw [abs_of_nonneg (by norm_num), abs_of_nonpos (by norm_num)]
    norm_num
  · rw [abs_of_nonneg (by norm_num), abs_of_nonpos (by norm_num)]
    norm_num

/-- Claim C8, amended: for every `(lat, lon)` with lat ∈ [−90, 90] and
lon ∈ [−180, 180], `decode(encode(lat, lon, 8))` has absolute error below
0.001° in both coordinates (the decoded point is the center of the final
bounding box, which still contains the input and whose lat/lon widths are
`180/2^20` and `360/2^20`).  The monotone-decrease part of the original
claim is false — the error can grow when the precision grows, as the
counterexample at `(22.5, 22.5)` shows — only the geometric shrinking of
the containing cell, and hence the `p = 8` bound, survives. -/
theorem decode_encode_p8_error (lat lon : ℚ)
    (h1 : -90 ≤ lat) (h2 : lat ≤ 90) (h3 : -180 ≤ lon) (h4 : lon ≤ 180) :
    |lat - (Decode (Encode lat lon 8)).1| < 1/1000 ∧
    |lon - (Decode (Encode lat lon 8)).2| < 1/1000 := by
  rw [Decode_Encode, show 5 * clampPrecision 8 = 2 * 20 by decide]
  obtain ⟨e0, e1, e2⟩ := encodeFinal_width lat lon 20 initState rfl
  obtain ⟨m1, m2, m3, m4⟩ := encodeFinal_mem lat lon (2 * 20) initState
    h1 h2 h3 h4
  have w1 : (encodeFinal lat lon (2 * 20) initState).maxLat -
      (encodeFinal lat lon (2 * 20) initState).minLat = 180 / 2 ^ 20 := by
    rw [e1]; norm_num [initState]
  have w2 : (encodeFinal lat lon (2 * 20) initState).maxLon -
      (encodeFinal lat lon (2 * 20) initState).minLon = 360 / 2 ^ 20 := by
    rw [e2]; norm_num [initState]
  constructor
  · have hb : |lat - ((encodeFinal lat lon (2 * 20) initState).minLat +
        (encodeFinal lat lon (2 * 20) initState).maxLat) / 2| ≤
        ((encodeFinal lat lon (2 * 20) initState).maxLat -
          (encodeFinal lat lon (2 * 20) initState).minLat) / 2 := by
      rw [abs_le]; constructor <;> linarith
    calc |lat - (((encodeFinal lat lon (2 * 20) initState).minLat +
          (encodeFinal lat lon (2 * 20) initState).maxLat) / 2,
          ((encodeFinal lat lon (2 * 20) initState).minLon +
          (encodeFinal lat lon (2 * 20) initState).maxLon) / 2).1|
        ≤ ((encodeFinal lat lon (2 * 20) initState).maxLat -
            (encodeFinal lat lon (2 * 20) initState).minLat) / 2 := hb
      _ = (180 / 2 ^ 20) / 2 := by rw [w1]
      _ < 1/1000 := by norm_num
  · have hb : |lon - ((encodeFinal lat lon (2 * 20) initState).minLon +
        (encodeFinal lat lon (2 * 20) initState).maxLon) / 2| ≤
        ((encodeFinal lat lon (2 * 20) initState).maxLon -
          (encodeFinal lat lon (2 * 20) initState).minLon) / 2 := by
      rw [abs_le]; constructor <;> linarith
    calc |lon - (((encodeFinal lat lon (2 * 20) initState).minLat +
          (encodeFinal lat lon (2 * 20) initState).maxLat) / 2,
          ((encodeFinal lat lon (2 * 20) initState).minLon +
          (encodeFinal lat lon (2 * 20) initState).maxLon) / 2).2|
        ≤ ((encodeFinal lat lon (2 * 20) initState).maxLon -
            (encodeFinal lat lon (2 * 20) initState).minLon) / 2 := hb
      _ = (360 / 2 ^ 20) / 2 := by rw [w2]
      _ < 1/1000 := by norm_num

/-- Witness for the amended C8 at the non-dyadic point `(1/3, 5/7)`. -/
theorem decode_encode_p8_error_witness :
    |(1/3 : ℚ) - (Decode (Encode (1/3) (5/7) 8)).1| < 1/1000 ∧
    |(5/7 : ℚ) - (Decode (Encode (1/3) (5/7) 8)).2| < 1/1000 :=
  decode_encode_p8_error (1/3) (5/7) (by norm_num) (by norm_num)
    (by norm_num) (by norm_num)

end Uber
